import Mathlib

/-!
# Verification of `batou.secrets.encryption`

Shallow embedding of `src/batou/secrets/encryption.py`: the
`EncryptedFile` primitive (advisory locking, lazy decryption, atomic
encrypt-with-rollback) and the `EncryptedConfigFile` bundle
(membership extraction, multi-file re-encryption, lifecycle).

External effects (filesystem contents, the GPG binary, POSIX lockf)
are modelled explicitly: disk contents are `Option String` per path
(none = file absent), and the outcome of each external tool call is
supplied by an environment record, so every Python control path
becomes a pure Lean function on states.
-/

namespace Batou

/-- The exception kinds the Python code can raise on the modelled paths.

* `fileLocked`   — `FileLockedError` (lock unavailable, `BlockingIOError`)
* `gpgNotFound`  — `RuntimeError("Could not find gpg binary. ...")` from `gpg()`
* `gpgCallError` — `GPGCallError` raised by `_decrypt` on nonzero exit
* `gpgNonZero`   — `RuntimeError("GPG returned non-zero exit code.")` in `_encrypt`
* `needWriteLock` — `RuntimeError("write() needs a write lock")` in `write`
* `missingRecipients` — `ValueError("Need at least one recipient. ...")` in `_encrypt`
* `fileNotFound` — `FileNotFoundError` from `os.rename`/`open("r+")`/`os.unlink`
                   on a missing path
* `typeError`    — `AttributeError` from `data.encode(...)` when `cleartext` is
                   Python `None` -/
inductive Err where
  | fileLocked
  | gpgNotFound
  | gpgCallError
  | gpgNonZero
  | needWriteLock
  | missingRecipients
  | fileNotFound
  | typeError
  deriving DecidableEq, Repr

/-- Outcome oracle for the external encryption tool during `_encrypt`.

* `located` — whether `gpg()` finds a responding binary among
  `GPG_BINARY_CANDIDATES` (`subprocess.check_call([gpg, "--version"])`
  succeeds for some candidate).
* `encryptOut fname data recipients` — outcome of the
  `gpg --encrypt -r ... -o fname` child process fed `data`:
  `some cipher` means exit code 0 with `cipher` written to `fname`;
  `none` means a nonzero exit code. -/
structure GpgEnv where
  located : Bool
  encryptOut : String → String → List String → Option String

/-- In-memory state of one `EncryptedFile` instance (its Python attributes).
`cleartext = none` and `is_new = none` model the Python `None` defaults. -/
structure EncryptedFile where
  encrypted_filename : String
  write_lock : Bool
  recipients : List String
  cleartext : Option String
  is_new : Option Bool
  deriving DecidableEq, Repr

/-- `EncryptedFile.__init__`: stores the filename and the write-lock flag,
and initialises `recipients = []`; `cleartext` and `is_new` keep their
class-level `None` defaults. -/
def EncryptedFile.init (encrypted_filename : String) (write_lock : Bool) :
    EncryptedFile :=
  { encrypted_filename := encrypted_filename
    write_lock := write_lock
    recipients := []
    cleartext := none
    is_new := none }

/-- Disk contents relevant to one encrypted file: the bytes at
`encrypted_filename` (`main`) and at `encrypted_filename ++ ".old"`
(`backup`); `none` means the path does not exist. -/
structure FileDisk where
  main : Option String
  backup : Option String
  deriving DecidableEq, Repr

/-- `EncryptedFile._encrypt(data)`, as a function of the tool oracle, the
recipient list, the (possibly `None`) cleartext `data`, and the disk.
Returns the raised error or success, the final disk state, and whether an
external tool process was started.

Control flow of the source, in order:
1. empty `recipients` → raise `ValueError` (before touching the disk);
2. `os.rename(filename, filename + ".old")` — raises `FileNotFoundError`
   if `filename` does not exist, otherwise moves the bytes to the backup
   path (overwriting any previous backup);
3. `self.gpg()` — raises `RuntimeError` if no binary is located; this
   happens OUTSIDE the `try` block, so the backup is NOT renamed back;
4. the `try` block: `Popen`/`communicate(data.encode())`; a `None`
   cleartext raises `AttributeError` inside the `try`; a nonzero exit
   raises `RuntimeError` inside the `try`; either way the `except` clause
   renames the backup onto the original path and re-raises;
5. on success the output file holds the ciphertext and the backup is
   unlinked. -/
def encryptStep (env : GpgEnv) (fname : String) (recipients : List String)
    (data : Option String) (d : FileDisk) : Except Err Unit × FileDisk × Bool :=
  if recipients.isEmpty then
    (.error .missingRecipients, d, false)
  else
    match d.main with
    | none => (.error .fileNotFound, d, false)
    | some content =>
      if env.located then
        match data with
        | none => (.error .typeError, ⟨some content, none⟩, true)
        | some dat =>
          match env.encryptOut fname dat recipients with
          | some cipher => (.ok (), ⟨some cipher, none⟩, true)
          | none => (.error .gpgNonZero, ⟨some content, none⟩, true)
      else
        (.error .gpgNotFound, ⟨none, some content⟩, true)

/-- `EncryptedFile.write()`: requires the write lock, sets
`is_new = False`, then runs `_encrypt(self.cleartext)`. Returns the
outcome, the final in-memory file state, the final disk state, and
whether an external tool process was started. -/
def EncryptedFile.write (env : GpgEnv) (f : EncryptedFile) (d : FileDisk) :
    Except Err Unit × EncryptedFile × FileDisk × Bool :=
  if f.write_lock then
    let f1 := { f with is_new := some false }
    let out := encryptStep env f.encrypted_filename f.recipients f.cleartext d
    (out.1, f1, out.2.1, out.2.2)
  else
    (.error .needWriteLock, f, d, false)

/-- Outcome oracle for `EncryptedFile.read`.

* `pathExists` — `os.path.exists(self.encrypted_filename)`.
* `decryptResult` — the outcome of `self._decrypt()`: `ok s` is the
  tool's stdout decoded as UTF-8; `error` covers both the locate
  failure inside `_decrypt` and `GPGCallError` on nonzero exit. -/
structure ReadEnv where
  pathExists : Bool
  decryptResult : Except Err String

/-- `EncryptedFile.read()`: if `cleartext` is not `None` return it
unchanged; else if the path exists delegate to `_decrypt` (caching only
on success, since an exception propagates before the assignment); else
cache and return the empty string. The `Nat` counts `_decrypt`
invocations made by this call. -/
def EncryptedFile.read (env : ReadEnv) (f : EncryptedFile) :
    Except Err String × EncryptedFile × Nat :=
  match f.cleartext with
  | some c => (.ok c, f, 0)
  | none =>
    if env.pathExists then
      match env.decryptResult with
      | .ok s => (.ok s, { f with cleartext := some s }, 1)
      | .error e => (.error e, f, 1)
    else
      (.ok "", { f with cleartext := some "" }, 0)

/-! ## Advisory locking (`_lock` and `fcntl.lockf`) -/

/-- `fcntl.LOCK_SH` on Linux. -/
def LOCK_SH : Nat := 1
/-- `fcntl.LOCK_EX` on Linux. -/
def LOCK_EX : Nat := 2
/-- `fcntl.LOCK_NB` on Linux. -/
def LOCK_NB : Nat := 4
/-- `fcntl.LOCK_UN` on Linux. -/
def LOCK_UN : Nat := 8

/-- The flag word `_lock` passes to `fcntl.lockf`:
`LOCK_EX | LOCK_NB | (LOCK_EX if self.write_lock else LOCK_SH)`.
The word contains `LOCK_EX` unconditionally, but under lockf's
precedence (see `lockfType`) the `LOCK_SH` bit wins for read-only
sessions. -/
def lockFlags (write_lock : Bool) : Nat :=
  LOCK_EX ||| LOCK_NB ||| (if write_lock then LOCK_EX else LOCK_SH)

/-- The POSIX record-lock type a flag word resolves to. -/
inductive LockType where
  | unlock
  | exclusive
  | shared
  deriving DecidableEq, Repr

/-- CPython `fcntl.lockf` semantics (Modules/fcntlmodule.c): a flag word
equal to `LOCK_UN` means `F_UNLCK`; otherwise the `LOCK_SH` bit is
tested first (`F_RDLCK`, a shared request), then the `LOCK_EX` bit
(`F_WRLCK`, an exclusive request); any other word is a `ValueError`
(final arm, unreachable from `_lock`). -/
def lockfType (flags : Nat) : LockType :=
  if flags = LOCK_UN then .unlock
  else if flags &&& LOCK_SH ≠ 0 then .shared
  else if flags &&& LOCK_EX ≠ 0 then .exclusive
  else .unlock

/-- CPython `fcntl.lockf` semantics: the call is non-blocking (`F_SETLK`
rather than `F_SETLKW`) exactly when `LOCK_NB` is set. -/
def lockfNonBlocking (flags : Nat) : Bool :=
  flags &&& LOCK_NB ≠ 0

/-- `EncryptedFile._lock()`: if `is_new` is still `None`, set it from
`os.path.exists` at this moment; then `open(filename, "a+" | "r+")`
(`"r+"` raises `FileNotFoundError` on a missing path, `"a+"` creates it);
then `fcntl.lockf(..., lockFlags write_lock)`, turning
`BlockingIOError` into `FileLockedError`. `lockAvailable` says whether
the non-blocking lock request succeeds. The mutated file state is
returned on every path (Python mutates `self` in place before raising). -/
def EncryptedFile.lockStep (pathExists lockAvailable : Bool)
    (f : EncryptedFile) : Except Err Unit × EncryptedFile :=
  let f1 := if f.is_new.isNone then { f with is_new := some (!pathExists) } else f
  if !f.write_lock && !pathExists then
    (.error .fileNotFound, f1)
  else if !lockAvailable then
    (.error .fileLocked, f1)
  else
    (.ok (), f1)

/-! ## The bundle (`EncryptedConfigFile`) -/

/-- The ASCII whitespace characters removed by Python `str.strip()`:
space, tab, newline, carriage return, vertical tab, form feed. -/
def isPySpace (c : Char) : Bool :=
  c = ' ' || c = '\t' || c = '\n' || c = '\r' || c = '\x0b' || c = '\x0c'

/-- Python `str.strip()` on a character list: drop whitespace from both
ends. -/
def stripChars (s : List Char) : List Char :=
  ((s.dropWhile isPySpace).reverse.dropWhile isPySpace).reverse

/-- Python `str.strip()`. -/
def pyStrip (s : String) : String := ⟨stripChars s.data⟩

/-- Python `str.split(",")` on a character list: cut at every comma,
keeping empty pieces; the empty string yields one empty piece. -/
def splitCommaChars : List Char → List (List Char)
  | [] => [[]]
  | c :: cs =>
    match splitCommaChars cs with
    | [] => [[]]
    | t :: ts => if c = ',' then [] :: t :: ts else (c :: t) :: ts

/-- Python `str.split(",")`. -/
def pySplitComma (s : String) : List String :=
  (splitCommaChars s.data).map (fun l => ⟨l⟩)

/-- Python string comparison on character lists: lexicographic by code
point (`ord`). `strLe a b` is `a <= b`. -/
def strLe : List Char → List Char → Bool
  | [], _ => true
  | _ :: _, [] => false
  | a :: as, b :: bs =>
    if a.toNat < b.toNat then true
    else if b.toNat < a.toNat then false
    else strLe as bs

/-- Python `<=` on strings, as a relation. -/
def pyLe (a b : String) : Prop := strLe a.data b.data = true

instance : DecidableRel pyLe := fun a b => by
  unfold pyLe; infer_instance

/-- Python `list.sort()` on strings: a stable sort by `pyLe`
(insertion sort has the same observable behaviour: a stable sort under a
total order determines the output uniquely). -/
def sortStrings (l : List String) : List String :=
  List.insertionSort pyLe l

/-- `EncryptedConfigFile.get_members()`, as a function of the raw value of
the `[batou] members` option (`none` when the section or option is
missing, in which case the `except` clause returns `[]`):
split the value on `","`, strip each entry, drop empty entries, sort. -/
def get_members (membersValue : Option String) : List String :=
  match membersValue with
  | none => []
  | some v =>
    let members := (pySplitComma v).map pyStrip
    let members := members.filter (fun s => s ≠ "")
    sortStrings members

/-- The parsed `ConfigUpdater` state of the bundle, reduced to what the
modelled operations consult: the raw `[batou] members` value and the
full text the document serialises to (`config.write(s); s.getvalue()`). -/
structure Config where
  membersValue : Option String
  serialized : String
  deriving DecidableEq, Repr

/-- An `EncryptedConfigFile` session: the shared `write_lock` flag and the
insertion-ordered `files` dict, as an association list keyed by path.
The main file is the first entry (it is added first in `__init__`). -/
structure ConfigSession where
  write_lock : Bool
  files : List (String × EncryptedFile)
  deriving Repr

/-- `EncryptedConfigFile.add_file(filename)`: if the path is already
registered, return the existing handle untouched. Otherwise construct
`EncryptedFile(filename, self.write_lock, ...)`, register it, and call
its `read()`; the registration happens before the `read`, so a
propagating decrypt error still leaves the file registered. Returns the
`read` outcome carrying the handle, the new session, and the number of
`_decrypt` invocations. -/
def ConfigSession.add_file (env : ReadEnv) (s : ConfigSession)
    (filename : String) : Except Err EncryptedFile × ConfigSession × Nat :=
  match s.files.lookup filename with
  | some f => (.ok f, s, 0)
  | none =>
    let f := EncryptedFile.init filename s.write_lock
    let out := EncryptedFile.read env f
    let s1 : ConfigSession :=
      { s with files := s.files ++ [(filename, out.2.1)] }
    match out.1 with
    | .ok _ => (.ok out.2.1, s1, out.2.2)
    | .error e => (.error e, s1, out.2.2)

/-- The loop body of `EncryptedConfigFile.write()`: for each registered
file in dict order, set `file.recipients` to the member list and call
`file.write()`. An exception aborts the loop: the failing file keeps its
mutated in-memory state and rolled-back disk, later files are untouched. -/
def writeAll (env : GpgEnv) (members : List String) :
    List (EncryptedFile × FileDisk) →
      Except Err Unit × List (EncryptedFile × FileDisk)
  | [] => (.ok (), [])
  | (f, d) :: rest =>
    let f1 := { f with recipients := members }
    let out := EncryptedFile.write env f1 d
    match out.1 with
    | .ok _ =>
      let tail := writeAll env members rest
      (tail.1, (out.2.1, out.2.2.1) :: tail.2)
    | .error e => (.error e, (out.2.1, out.2.2.1) :: rest)

/-- The first statement of `EncryptedConfigFile.write()`:
`self.main_file.cleartext = s.getvalue()` — the main file is the first
entry of the `files` dict (added first in `__init__`). -/
def updateMainCleartext (serialized : String) :
    List (EncryptedFile × FileDisk) → List (EncryptedFile × FileDisk)
  | [] => []
  | (m, d) :: rest => ({ m with cleartext := some serialized }, d) :: rest

/-- `EncryptedConfigFile.write()` (the bundle-level commit): serialise the
config document into the main file's cleartext (the first registered
file), then run the write loop with `get_members()` — the config is not
mutated inside the loop, so every iteration sees the same list. -/
def bundleCommit (env : GpgEnv) (cfg : Config)
    (files : List (EncryptedFile × FileDisk)) :
    Except Err Unit × List (EncryptedFile × FileDisk) :=
  writeAll env (get_members cfg.membersValue)
    (updateMainCleartext cfg.serialized files)

/-- Bundle state consulted by `EncryptedConfigFile.__exit__`: whether the
main file's lock descriptor is open, and the disk content at the main
file's path. -/
structure BundleState where
  mainLocked : Bool
  mainDisk : Option String
  deriving DecidableEq, Repr

/-- `EncryptedConfigFile.__exit__`: close the main file's lock descriptor
(releasing the advisory lock), then, if `get_members()` is empty, unlink
the main file's path (`os.unlink` raises `FileNotFoundError` if the path
does not exist). -/
def bundleExit (membersValue : Option String) (st : BundleState) :
    Except Err Unit × BundleState :=
  let st1 := { st with mainLocked := false }
  if (get_members membersValue).isEmpty then
    match st1.mainDisk with
    | none => (.error .fileNotFound, st1)
    | some _ => (.ok (), { st1 with mainDisk := none })
  else
    (.ok (), st1)

/-! ## Order lemmas for the membership sort -/

theorem strLe_total : ∀ a b : List Char, strLe a b = true ∨ strLe b a = true
  | [], _ => .inl rfl
  | _ :: _, [] => .inr rfl
  | a :: as, b :: bs => by
    rcases Nat.lt_trichotomy a.toNat b.toNat with h | h | h
    · left; simp [strLe, h]
    · have h1 : ¬a.toNat < b.toNat := by omega
      have h2 : ¬b.toNat < a.toNat := by omega
      simpa [strLe, h1, h2] using strLe_total as bs
    · right; simp [strLe, h]

theorem strLe_trans : ∀ a b c : List Char,
    strLe a b = true → strLe b c = true → strLe a c = true
  | [], _, _, _, _ => rfl
  | _ :: _, [], _, hab, _ => by simp [strLe] at hab
  | _ :: _, _ :: _, [], _, hbc => by simp [strLe] at hbc
  | a :: as, b :: bs, c :: cs, hab, hbc => by
    simp only [strLe] at hab hbc ⊢
    by_cases h1 : a.toNat < b.toNat
    · by_cases h2 : b.toNat < c.toNat
      · have hac : a.toNat < c.toNat := by omega
        simp [hac]
      · by_cases h3 : c.toNat < b.toNat
        · simp [h2, h3] at hbc
        · have hac : a.toNat < c.toNat := by omega
          simp [hac]
    · by_cases h1' : b.toNat < a.toNat
      · simp [h1, h1'] at hab
      · by_cases h2 : b.toNat < c.toNat
        · have hac : a.toNat < c.toNat := by omega
          simp [hac]
        · by_cases h3 : c.toNat < b.toNat
          · simp [h2, h3] at hbc
          · have t1 : ¬a.toNat < c.toNat := by omega
            have t2 : ¬c.toNat < a.toNat := by omega
            have hab' : strLe as bs = true := by simpa [h1, h1'] using hab
            have hbc' : strLe bs cs = true := by simpa [h2, h3] using hbc
            simp [t1, t2, strLe_trans as bs cs hab' hbc']

instance : IsTotal String pyLe := ⟨fun a b => strLe_total a.data b.data⟩

instance : IsTrans String pyLe :=
  ⟨fun a b c => strLe_trans a.data b.data c.data⟩

/-! ## Helper lemmas about a single `write()` -/

/-- A successful `write()` means: the write lock was held, the cleartext
was a string `dat`, the tool was located, it exited 0 producing `cipher`
at the original path, the backup is gone, and `is_new` is `False`. -/
theorem write_ok_spec (env : GpgEnv) (f : EncryptedFile) (d : FileDisk)
    (hok : (EncryptedFile.write env f d).1 = .ok ()) :
    (EncryptedFile.write env f d).2.1 = { f with is_new := some false } ∧
    ∃ dat cipher, f.cleartext = some dat ∧
      env.encryptOut f.encrypted_filename dat f.recipients = some cipher ∧
      (EncryptedFile.write env f d).2.2.1 = ⟨some cipher, none⟩ := by
  unfold EncryptedFile.write encryptStep at hok ⊢
  cases hw : f.write_lock with
  | false => simp [hw] at hok
  | true =>
    simp only [hw, if_true] at hok ⊢
    cases hre : f.recipients.isEmpty with
    | true => simp [hre] at hok
    | false =>
      simp only [hre] at hok ⊢
      cases hm : d.main with
      | none => simp [hm] at hok
      | some content =>
        simp only [hm] at hok ⊢
        cases hl : env.located with
        | false => simp [hl] at hok
        | true =>
          simp only [hl, if_true] at hok ⊢
          cases hct : f.cleartext with
          | none => simp [hct] at hok
          | some dat =>
            simp only [hct] at hok ⊢
            cases hout : env.encryptOut f.encrypted_filename dat f.recipients with
            | none => simp [hout] at hok
            | some cipher =>
              exact ⟨by simp [hout], dat, cipher, rfl, hout, by simp [hout]⟩

/-- If `write()` raises while the encryption tool is locatable, the bytes
at the original path are unchanged: every failure inside the `try` block
triggers the rollback rename, and every failure before the backup rename
leaves the disk untouched. (The excluded case is the locate failure,
which strikes after the backup rename but outside the `try`.) -/
theorem write_fail_main_eq (env : GpgEnv) (f : EncryptedFile) (d : FileDisk)
    (e : Err) (hloc : env.located = true)
    (hfail : (EncryptedFile.write env f d).1 = .error e) :
    (EncryptedFile.write env f d).2.2.1.main = d.main := by
  unfold EncryptedFile.write encryptStep at hfail ⊢
  cases hw : f.write_lock with
  | false => simp [hw]
  | true =>
    simp only [hw, if_true] at hfail ⊢
    cases hre : f.recipients.isEmpty with
    | true => simp [hre]
    | false =>
      simp only [hre] at hfail ⊢
      cases hm : d.main with
      | none => simp [hm]
      | some content =>
        simp only [hm, hloc, if_true] at hfail ⊢
        cases hct : f.cleartext with
        | none => simp [hct]
        | some dat =>
          simp only [hct] at hfail ⊢
          cases hout : env.encryptOut f.encrypted_filename dat f.recipients with
          | none => simp [hout]
          | some cipher => simp [hout] at hfail

/-! ## Helper lemmas about the bundle write loop -/

/-- The in-memory and on-disk state one loop iteration of
`EncryptedConfigFile.write()` leaves one file in: recipients set to the
member list, then `write()` run. -/
def writeResult (env : GpgEnv) (members : List String)
    (fd : EncryptedFile × FileDisk) : EncryptedFile × FileDisk :=
  ((EncryptedFile.write env { fd.1 with recipients := members } fd.2).2.1,
   (EncryptedFile.write env { fd.1 with recipients := members } fd.2).2.2.1)

/-- If the whole write loop succeeds, every file in the resulting mapping
carries the member list as its recipients, has `is_new = False`, and its
path holds the ciphertext the tool produced for exactly that list. -/
theorem writeAll_ok_spec (env : GpgEnv) (members : List String) :
    ∀ files : List (EncryptedFile × FileDisk),
      (writeAll env members files).1 = .ok () →
      ∀ fd ∈ (writeAll env members files).2,
        fd.1.recipients = members ∧ fd.1.is_new = some false ∧
        ∃ dat cipher, fd.1.cleartext = some dat ∧
          env.encryptOut fd.1.encrypted_filename dat members = some cipher ∧
          fd.2 = ⟨some cipher, none⟩
  | [], _, fd, hmem => by simp [writeAll] at hmem
  | (f, d) :: rest, hok, fd, hmem => by
    unfold writeAll at hok hmem
    cases hr : (EncryptedFile.write env { f with recipients := members } d).1 with
    | error e => simp [hr] at hok
    | ok u =>
      cases u
      simp only [hr] at hok hmem
      rcases List.mem_cons.mp hmem with hfd | hfd
      · subst hfd
        obtain ⟨hst, dat, cipher, hct, hout, hdisk⟩ :=
          write_ok_spec env { f with recipients := members } d hr
        refine ⟨?_, ?_, dat, cipher, ?_, ?_, ?_⟩
        · rw [hst]
        · rw [hst]
        · rw [hst]; exact hct
        · rw [hst]; exact hout
        · exact hdisk
      · exact writeAll_ok_spec env members rest hok fd hfd

/-- If all files before a split point write successfully and the file at
the split point fails, the loop stops there: the earlier files keep
their just-written state, the failing file keeps its mutated state and
rolled-back disk, the later files are returned untouched, and the error
propagates. -/
theorem writeAll_stops_on_failure (env : GpgEnv) (members : List String)
    (bf : EncryptedFile) (bd : FileDisk) (e : Err)
    (hbad : (EncryptedFile.write env { bf with recipients := members } bd).1 =
      .error e) :
    ∀ pre : List (EncryptedFile × FileDisk),
      ∀ post : List (EncryptedFile × FileDisk),
      (∀ fd ∈ pre,
        (EncryptedFile.write env { fd.1 with recipients := members } fd.2).1 =
          .ok ()) →
      writeAll env members (pre ++ (bf, bd) :: post) =
        (.error e,
          pre.map (writeResult env members) ++
            writeResult env members (bf, bd) :: post)
  | [], post, _ => by
    unfold writeAll
    simp only [hbad, List.map_nil, List.nil_append]
    rfl
  | (f, d) :: pre, post, hpre => by
    have hhead := hpre (f, d) (List.mem_cons_self _ _)
    have htail : ∀ fd ∈ pre,
        (EncryptedFile.write env { fd.1 with recipients := members } fd.2).1 =
          .ok () :=
      fun fd hfd => hpre fd (List.mem_cons_of_mem _ hfd)
    have ih := writeAll_stops_on_failure env members bf bd e hbad pre post htail
    unfold writeAll
    cases hr : (EncryptedFile.write env { f with recipients := members } d).1 with
    | error e' => rw [hhead] at hr; cases hr
    | ok u =>
      simp only [List.cons_append, ih, List.map_cons, List.cons_append, hr]
      rfl

/-! ## Claim theorems -/

/-- C1, counterexample: the claim fails when the encryption step fails
because no tool binary is located. `gpg()` is called after the backup
rename but outside the `try` block whose handler performs the rollback,
so `write()` raises `RuntimeError` and the original path is left with no
file (`main = none`), not byte-identical to its prior state
(`some "CIPHER"`, now sitting at the `.old` backup path). -/
theorem write_locate_failure_skips_rollback :
    (EncryptedFile.write ⟨false, fun _ _ _ => none⟩
        ⟨"secrets.cfg", true, ["alice"], some "data", some false⟩
        ⟨some "CIPHER", none⟩).1 = .error .gpgNotFound ∧
    (EncryptedFile.write ⟨false, fun _ _ _ => none⟩
        ⟨"secrets.cfg", true, ["alice"], some "data", some false⟩
        ⟨some "CIPHER", none⟩).2.2.1 = ⟨none, some "CIPHER"⟩ ∧
    (none : Option String) ≠ some "CIPHER" :=
  ⟨rfl, rfl, by decide⟩

/-- C1, amended: for every `write()` call in which the encryption step
fails *with the tool located* (nonzero tool exit, or any failure inside
the invocation), the ciphertext file at the original path is
byte-identical to its state before the call: the backup is renamed back
before the error propagates. (A failure to locate the tool instead
leaves the original path empty and the bytes at the backup path.) -/
theorem write_rollback_restores_ciphertext (env : GpgEnv) (f : EncryptedFile)
    (d : FileDisk) (e : Err) (hloc : env.located = true)
    (hfail : (EncryptedFile.write env f d).1 = .error e) :
    (EncryptedFile.write env f d).2.2.1.main = d.main :=
  write_fail_main_eq env f d e hloc hfail

/-- Witness for C1's amended theorem: a nonzero tool exit during a
concrete `write()` leaves the original ciphertext in place. -/
theorem write_rollback_restores_ciphertext_witness :
    (EncryptedFile.write ⟨true, fun _ _ _ => none⟩
        ⟨"secrets.cfg", true, ["alice"], some "data", some false⟩
        ⟨some "CIPHER", none⟩).2.2.1.main = some "CIPHER" :=
  write_rollback_restores_ciphertext ⟨true, fun _ _ _ => none⟩
    ⟨"secrets.cfg", true, ["alice"], some "data", some false⟩
    ⟨some "CIPHER", none⟩ .gpgNonZero rfl rfl

/-- C4: `write()` without the write-lock flag raises the not-writable
error, and `write()` with an empty recipient list raises the
missing-recipients error; in both cases the disk is untouched and no
encryption-tool process is started. -/
theorem write_guard_errors (env : GpgEnv) (f : EncryptedFile) (d : FileDisk) :
    (f.write_lock = false →
      EncryptedFile.write env f d = (.error .needWriteLock, f, d, false)) ∧
    (f.write_lock = true → f.recipients = [] →
      EncryptedFile.write env f d =
        (.error .missingRecipients, { f with is_new := some false }, d,
          false)) := by
  constructor
  · intro h
    simp [EncryptedFile.write, h]
  · intro h hr
    simp [EncryptedFile.write, encryptStep, h, hr]

/-- Witness for C4: both guard failures on concrete inputs. -/
theorem write_guard_errors_witness :
    EncryptedFile.write ⟨true, fun _ _ _ => some "CT"⟩
        ⟨"f", false, ["alice"], some "x", none⟩ ⟨some "C", none⟩ =
      (.error .needWriteLock, ⟨"f", false, ["alice"], some "x", none⟩,
        ⟨some "C", none⟩, false) ∧
    EncryptedFile.write ⟨true, fun _ _ _ => some "CT"⟩
        ⟨"g", true, [], some "x", some true⟩ ⟨some "C", none⟩ =
      (.error .missingRecipients, ⟨"g", true, [], some "x", some false⟩,
        ⟨some "C", none⟩, false) :=
  ⟨(write_guard_errors _ _ _).1 rfl, (write_guard_errors _ _ _).2 rfl rfl⟩

/-- C6: under CPython's `fcntl.lockf` precedence (the `LOCK_SH` bit is
tested before `LOCK_EX`), the flag word `_lock` builds requests an
exclusive lock for a write session and a shared lock for a read-only
session — the unconditional `LOCK_EX` summand in the read-only word is
harmless because the `LOCK_SH` bit wins — and both requests are
non-blocking (`LOCK_NB` is always set). -/
theorem lock_flags_exclusive_for_write_shared_for_read :
    lockfType (lockFlags true) = LockType.exclusive ∧
    lockfNonBlocking (lockFlags true) = true ∧
    lockfType (lockFlags false) = LockType.shared ∧
    lockfNonBlocking (lockFlags false) = true := by
  decide

/-- C7: `get_members` returns the comma-split, stripped, nonempty-filtered
entries of the field value sorted by the code-point order, and performs
no deduplication: every string occurs in the result exactly as often as
it occurs among the stripped nonempty entries. -/
theorem get_members_sorts_without_dedup (v : String) :
    List.Pairwise pyLe (get_members (some v)) ∧
    ∀ s : String,
      (get_members (some v)).count s =
        (((pySplitComma v).map pyStrip).filter (fun t => t ≠ "")).count s := by
  constructor
  · exact List.sorted_insertionSort pyLe _
  · intro s
    exact (List.perm_insertionSort pyLe _).count_eq s

/-- C10: once past the write-lock check, `write()` sets `is_new` to
`False` before the recipient list is validated, so a failing `write()`
(for instance with no recipients) still leaves `is_new = False` on the
in-memory handle while producing no new ciphertext. -/
theorem write_clears_is_new_before_validation (env : GpgEnv)
    (f : EncryptedFile) (d : FileDisk) (hw : f.write_lock = true) :
    (EncryptedFile.write env f d).2.1.is_new = some false ∧
    (f.recipients = [] →
      (EncryptedFile.write env f d).1 = .error .missingRecipients ∧
      (EncryptedFile.write env f d).2.2.1 = d) := by
  constructor
  · simp [EncryptedFile.write, hw]
  · intro hr
    simp [EncryptedFile.write, encryptStep, hw, hr]

/-- Witness for C10: a handle with `is_new = True` and no recipients ends
a failing `write()` with `is_new = False` and the disk unchanged. -/
theorem write_clears_is_new_witness :
    (EncryptedFile.write ⟨true, fun _ _ _ => some "CT"⟩
        ⟨"f", true, [], some "x", some true⟩ ⟨some "C", none⟩).2.1.is_new =
      some false ∧
    (EncryptedFile.write ⟨true, fun _ _ _ => some "CT"⟩
        ⟨"f", true, [], some "x", some true⟩ ⟨some "C", none⟩).1 =
      .error .missingRecipients :=
  ⟨(write_clears_is_new_before_validation ⟨true, fun _ _ _ => some "CT"⟩
      ⟨"f", true, [], some "x", some true⟩ ⟨some "C", none⟩ rfl).1,
   ((write_clears_is_new_before_validation ⟨true, fun _ _ _ => some "CT"⟩
      ⟨"f", true, [], some "x", some true⟩ ⟨some "C", none⟩ rfl).2 rfl).1⟩

/-- C3: a successful `read()` caches, so a second `read()` returns the
same string with no further `_decrypt` call and at most one `_decrypt`
call happens in total; on a missing path the empty string is cached with
no tool invocation; a decrypt failure propagates without populating the
cache, and a following `read()` runs `_decrypt` again. -/
theorem read_idempotent_caching (env env2 : ReadEnv) (f : EncryptedFile) :
    (∀ s g n, EncryptedFile.read env f = (.ok s, g, n) →
      n ≤ 1 ∧ EncryptedFile.read env2 g = (.ok s, g, 0)) ∧
    (f.cleartext = none → env.pathExists = false →
      EncryptedFile.read env f = (.ok "", { f with cleartext := some "" }, 0)) ∧
    (∀ e, f.cleartext = none → env.pathExists = true →
      env.decryptResult = .error e →
      EncryptedFile.read env f = (.error e, f, 1) ∧
      ∀ s2, env2.pathExists = true → env2.decryptResult = .ok s2 →
        EncryptedFile.read env2 f =
          (.ok s2, { f with cleartext := some s2 }, 1)) := by
  refine ⟨?_, ?_, ?_⟩
  · intro s g n h
    unfold EncryptedFile.read at h ⊢
    cases hct : f.cleartext with
    | some c =>
      simp only [hct, Prod.mk.injEq, Except.ok.injEq] at h
      obtain ⟨hs, hg, hn⟩ := h
      subst hs; subst hg; subst hn
      simp [hct]
    | none =>
      cases hex : env.pathExists with
      | true =>
        cases hdec : env.decryptResult with
        | ok s' =>
          simp only [hct, hex, hdec, if_true, Prod.mk.injEq,
            Except.ok.injEq] at h
          obtain ⟨hs, hg, hn⟩ := h
          subst hs; subst hg; subst hn
          simp
        | error e =>
          simp [hct, hex, hdec] at h
      | false =>
        simp only [hct, hex, if_false, Prod.mk.injEq, Except.ok.injEq,
          Bool.false_eq_true] at h
        obtain ⟨hs, hg, hn⟩ := h
        subst hs; subst hg; subst hn
        simp
  · intro hct hex
    unfold EncryptedFile.read
    simp [hct, hex]
  · intro e hct hex hdec
    unfold EncryptedFile.read
    constructor
    · simp [hct, hex, hdec]
    · intro s2 hex2 hdec2
      simp [hct, hex2, hdec2]

/-- Witness for C3: one concrete successful decrypt is cached, so the
second `read()` re-returns it with no further tool call; and one
concrete missing path returns the cached empty string with no call. -/
theorem read_idempotent_caching_witness :
    ((1 : Nat) ≤ 1 ∧
      EncryptedFile.read ⟨true, .ok "sec"⟩
          ⟨"p", false, [], some "sec", none⟩ =
        (.ok "sec", ⟨"p", false, [], some "sec", none⟩, 0)) ∧
    EncryptedFile.read ⟨false, .ok "x"⟩ ⟨"p", false, [], none, none⟩ =
      (.ok "", ⟨"p", false, [], some "", none⟩, 0) :=
  ⟨(read_idempotent_caching ⟨true, .ok "sec"⟩ ⟨true, .ok "sec"⟩
      ⟨"p", false, [], none, none⟩).1 "sec"
      ⟨"p", false, [], some "sec", none⟩ 1 rfl,
   (read_idempotent_caching ⟨false, .ok "x"⟩ ⟨false, .ok "x"⟩
      ⟨"p", false, [], none, none⟩).2.1 rfl rfl⟩

/-- C5, counterexample: `add_file` on a path absent from disk returns a
handle whose `is_new` is still the Python `None` default (`is_new` is
only assigned inside `_lock()`, which `add_file` never calls), not
`True` as the claim states. -/
theorem add_file_leaves_is_new_unset :
    ((ConfigSession.add_file ⟨false, .ok "X"⟩ ⟨true, []⟩
        "environments/dev/secret-new").1.map EncryptedFile.is_new) =
      .ok none ∧
    (Except.ok (none : Option Bool) : Except Err (Option Bool)) ≠
      .ok (some true) :=
  ⟨rfl, by simp⟩

/-- C5, amended: `add_file()` on an unregistered path that does not exist
on disk registers and returns a handle with `is_new` still unset
(`None`) and the empty string cached as cleartext, making no `_decrypt`
invocation; any later `read()` on the handle returns `""` with no tool
invocation; and `is_new` becomes `True` only when the handle is
subsequently locked (as the editor does by entering it), the path still
being absent. -/
theorem add_file_new_path (env : ReadEnv) (s : ConfigSession) (fname : String)
    (hnew : s.files.lookup fname = none) (hex : env.pathExists = false) :
    ConfigSession.add_file env s fname =
      (.ok ⟨fname, s.write_lock, [], some "", none⟩,
        { s with files :=
            s.files ++ [(fname, ⟨fname, s.write_lock, [], some "", none⟩)] },
        0) ∧
    (∀ env2 : ReadEnv,
      EncryptedFile.read env2 ⟨fname, s.write_lock, [], some "", none⟩ =
        (.ok "", ⟨fname, s.write_lock, [], some "", none⟩, 0)) ∧
    (∀ avail : Bool,
      (EncryptedFile.lockStep false avail
          ⟨fname, s.write_lock, [], some "", none⟩).2.is_new = some true) := by
  refine ⟨?_, fun env2 => rfl, fun avail => ?_⟩
  · unfold ConfigSession.add_file
    simp [hnew, EncryptedFile.init, EncryptedFile.read, hex]
  · unfold EncryptedFile.lockStep
    cases hw : s.write_lock <;> cases avail <;> simp

/-- Witness for C5's amended theorem at a concrete session and path. -/
theorem add_file_new_path_witness :
    ConfigSession.add_file ⟨false, .ok "X"⟩ ⟨true, []⟩ "q" =
      (.ok ⟨"q", true, [], some "", none⟩,
        ⟨true, [("q", ⟨"q", true, [], some "", none⟩)]⟩, 0) ∧
    (EncryptedFile.lockStep false true
        ⟨"q", true, [], some "", none⟩).2.is_new = some true :=
  ⟨(add_file_new_path ⟨false, .ok "X"⟩ ⟨true, []⟩ "q" rfl rfl).1,
   (add_file_new_path ⟨false, .ok "X"⟩ ⟨true, []⟩ "q" rfl rfl).2.2 true⟩

/-- C9: after `__exit__` the main file's lock descriptor is closed; if
`get_members()` is empty at that point the main path no longer exists on
disk, and if it is non-empty the exit succeeds with the main ciphertext
untouched. -/
theorem bundle_exit_cleanup (mv : Option String) (st : BundleState) :
    (bundleExit mv st).2.mainLocked = false ∧
    (get_members mv = [] → (bundleExit mv st).2.mainDisk = none) ∧
    (get_members mv ≠ [] →
      (bundleExit mv st).1 = .ok () ∧
      (bundleExit mv st).2.mainDisk = st.mainDisk) := by
  unfold bundleExit
  by_cases hm : get_members mv = []
  · cases hd : st.mainDisk <;> simp [hm, hd]
  · simp [hm, List.isEmpty_iff]

/-- Witness for C9: an emptied membership deletes the concrete main
file; a non-empty membership leaves it on disk. -/
theorem bundle_exit_cleanup_witness :
    (bundleExit (some " ") ⟨true, some "CT"⟩).2.mainDisk = none ∧
    ((bundleExit (some "alice") ⟨true, some "CT"⟩).1 = .ok () ∧
      (bundleExit (some "alice") ⟨true, some "CT"⟩).2.mainDisk = some "CT") :=
  ⟨(bundle_exit_cleanup (some " ") ⟨true, some "CT"⟩).2.1 rfl,
   (bundle_exit_cleanup (some "alice") ⟨true, some "CT"⟩).2.2 (by decide)⟩

/-- C2: when the bundle-level `write()` completes successfully, every
file in the resulting mapping carries the recipient list
`get_members()` — the membership document's current list at commit
time — as its recipients, and its path holds the ciphertext the tool
produced for exactly that list. -/
theorem commit_synchronizes_recipients (env : GpgEnv) (cfg : Config)
    (files : List (EncryptedFile × FileDisk)) (fd : EncryptedFile × FileDisk)
    (hok : (bundleCommit env cfg files).1 = .ok ())
    (hmem : fd ∈ (bundleCommit env cfg files).2) :
    fd.1.recipients = get_members cfg.membersValue ∧
    fd.1.is_new = some false ∧
    ∃ dat cipher, fd.1.cleartext = some dat ∧
      env.encryptOut fd.1.encrypted_filename dat (get_members cfg.membersValue)
        = some cipher ∧
      fd.2 = ⟨some cipher, none⟩ :=
  writeAll_ok_spec env (get_members cfg.membersValue)
    (updateMainCleartext cfg.serialized files) hok fd hmem

/-- Witness for C2: a concrete successful two-file commit leaves the
sibling with recipients equal to the membership list. -/
theorem commit_synchronizes_recipients_witness :
    (EncryptedFile.mk "sib" true ["alice", "bob"] (some "sc")
        (some false)).recipients = get_members (some "bob,alice") ∧
    (EncryptedFile.mk "sib" true ["alice", "bob"] (some "sc")
        (some false)).is_new = some false := by
  have h := commit_synchronizes_recipients
      ⟨true, fun fn _ _ => some ("E" ++ fn)⟩ ⟨some "bob,alice", "SERIAL"⟩
      [(⟨"main", true, [], some "old", some false⟩, ⟨some "MC", none⟩),
       (⟨"sib", true, [], some "sc", none⟩, ⟨some "SC", none⟩)]
      (⟨"sib", true, ["alice", "bob"], some "sc", some false⟩,
        ⟨some "Esib", none⟩)
      rfl (List.mem_cons_of_mem _ (List.mem_cons_self _ _))
  exact ⟨h.1, h.2.1⟩

/-- C8, counterexample: the claim fails when the write of a registered
file fails because no tool binary is located — the failing file does
not retain its prior ciphertext: the bytes have been renamed to the
backup path and the original path is left with no file. -/
theorem commit_failure_midway_cex :
    (bundleCommit ⟨false, fun _ _ _ => none⟩ ⟨some "alice", "SER"⟩
        [(⟨"main", true, [], some "x", some false⟩, ⟨some "CT", none⟩)]).1 =
      .error .gpgNotFound ∧
    (bundleCommit ⟨false, fun _ _ _ => none⟩ ⟨some "alice", "SER"⟩
        [(⟨"main", true, [], some "x", some false⟩, ⟨some "CT", none⟩)]).2 =
      [(⟨"main", true, ["alice"], some "SER", some false⟩,
        ⟨none, some "CT"⟩)] ∧
    (none : Option String) ≠ some "CT" :=
  ⟨rfl, rfl, by simp⟩

/-- C8, amended: if during the bundle-level `write()` a registered file's
`write()` fails *with the tool located*, then the loop stops there:
every earlier file already holds ciphertext encrypted for the new
recipient list, the failing file retains its prior ciphertext at its
path (per-file rollback), every later file is untouched, and the error
propagates with no re-encryption or rollback of the earlier files. (If
locating the tool fails, the failing file's ciphertext is instead left
at the backup path.) -/
theorem commit_failure_midway (env : GpgEnv) (cfg : Config)
    (files pre post : List (EncryptedFile × FileDisk))
    (bf : EncryptedFile) (bd : FileDisk) (e : Err)
    (hloc : env.located = true)
    (hsplit : updateMainCleartext cfg.serialized files =
      pre ++ (bf, bd) :: post)
    (hpre : ∀ fd ∈ pre,
      (EncryptedFile.write env
          { fd.1 with recipients := get_members cfg.membersValue } fd.2).1 =
        .ok ())
    (hbad : (EncryptedFile.write env
        { bf with recipients := get_members cfg.membersValue } bd).1 =
      .error e) :
    bundleCommit env cfg files =
      (.error e,
        pre.map (writeResult env (get_members cfg.membersValue)) ++
          writeResult env (get_members cfg.membersValue) (bf, bd) :: post) ∧
    (writeResult env (get_members cfg.membersValue) (bf, bd)).2.main =
      bd.main ∧
    ∀ fd ∈ pre,
      (writeResult env (get_members cfg.membersValue) fd).1.recipients =
        get_members cfg.membersValue ∧
      ∃ dat cipher, fd.1.cleartext = some dat ∧
        env.encryptOut fd.1.encrypted_filename dat
          (get_members cfg.membersValue) = some cipher ∧
        (writeResult env (get_members cfg.membersValue) fd).2 =
          ⟨some cipher, none⟩ := by
  refine ⟨?_, ?_, ?_⟩
  · unfold bundleCommit
    rw [hsplit]
    exact writeAll_stops_on_failure env _ bf bd e hbad pre post hpre
  · exact write_fail_main_eq env _ bd e hloc hbad
  · intro fd hfd
    obtain ⟨hst, dat, cipher, hct, hout, hdisk⟩ :=
      write_ok_spec env
        { fd.1 with recipients := get_members cfg.membersValue } fd.2
        (hpre fd hfd)
    refine ⟨?_, dat, cipher, hct, hout, hdisk⟩
    show (EncryptedFile.write env
        { fd.1 with recipients := get_members cfg.membersValue }
        fd.2).2.1.recipients = get_members cfg.membersValue
    rw [hst]

/-- Witness for C8's amended theorem: a concrete three-file commit whose
second file's encryption exits nonzero leaves the first file
re-encrypted, the second rolled back, the third untouched. -/
theorem commit_failure_midway_witness :
    bundleCommit
        ⟨true, fun fn _ _ => if fn = "bad" then none else some ("E" ++ fn)⟩
        ⟨some "alice", "SER"⟩
        [(⟨"main", true, [], some "mx", some false⟩, ⟨some "MCT", none⟩),
         (⟨"bad", true, [], some "bx", none⟩, ⟨some "BCT", none⟩),
         (⟨"sib", true, [], some "sx", none⟩, ⟨some "SCT", none⟩)] =
      (.error .gpgNonZero,
        [(⟨"main", true, ["alice"], some "SER", some false⟩,
          ⟨some "Emain", none⟩),
         (⟨"bad", true, ["alice"], some "bx", some false⟩,
          ⟨some "BCT", none⟩),
         (⟨"sib", true, [], some "sx", none⟩, ⟨some "SCT", none⟩)]) ∧
    (writeResult
        ⟨true, fun fn _ _ => if fn = "bad" then none else some ("E" ++ fn)⟩
        (get_members (some "alice"))
        (⟨"bad", true, [], some "bx", none⟩, ⟨some "BCT", none⟩)).2.main =
      some "BCT" := by
  have h := commit_failure_midway
      ⟨true, fun fn _ _ => if fn = "bad" then none else some ("E" ++ fn)⟩
      ⟨some "alice", "SER"⟩
      [(⟨"main", true, [], some "mx", some false⟩, ⟨some "MCT", none⟩),
       (⟨"bad", true, [], some "bx", none⟩, ⟨some "BCT", none⟩),
       (⟨"sib", true, [], some "sx", none⟩, ⟨some "SCT", none⟩)]
      [(⟨"main", true, [], some "SER", some false⟩, ⟨some "MCT", none⟩)]
      [(⟨"sib", true, [], some "sx", none⟩, ⟨some "SCT", none⟩)]
      ⟨"bad", true, [], some "bx", none⟩ ⟨some "BCT", none⟩ .gpgNonZero
      rfl rfl
      (fun fd hfd => by
        have heq := List.mem_singleton.mp hfd
        subst heq
        rfl)
      rfl
  refine ⟨?_, h.2.1⟩
  rw [h.1]
  rfl

end Batou
